import Mathlib

/-!
Shallow embedding of the Notion sync connector (`src/connectors/notionSync.js`)
of the AXT-MCP repository, together with theorems settling the spec claims.

The remote API is modelled as an environment of response functions; every
operation additionally returns the list of network calls it issued, and the
module-scoped client singleton (`let notion = null`) is threaded explicitly
as an `Option Client` value.  JS truthiness on optional strings (`x || d`,
`if (pageId)`) is modelled by `jsOr` / `jsTruthy`: both `undefined`/`null`
(here `none`) and the empty string are falsy.
-/

namespace NotionSync

/-- Truthiness-based string fallback, modelling the JS expression `x || d`
for a string-or-undefined `x`: both absence and the empty string fall back. -/
def jsOr (o : Option String) (d : String) : String :=
  match o with
  | none => d
  | some s => if s = "" then d else s

/-- JS truthiness of a string-or-undefined value: `undefined`, `null` and
the empty string are falsy, every other string is truthy. -/
def jsTruthy (o : Option String) : Bool :=
  match o with
  | none => false
  | some s => if s = "" then false else true

/-- The JS expression `x || null` on a string-or-undefined value, as used in
`record.notionPageId || null` inside the sync push loop. -/
def jsOrNull (o : Option String) : Option String :=
  if jsTruthy o then o else none

/-! ### Data model: the Notion property shapes used by the two transforms -/

/-- Innermost text object: `{ text: { content: ... } }`. -/
structure TextObj where
  content : String
deriving DecidableEq

/-- One item of a `title` / `rich_text` array; the `text` field is read with
optional chaining (`?.text`) so it is optional. -/
structure RichItem where
  text : Option TextObj
deriving DecidableEq

/-- The value of the `Name` property: `{ title: [...] }`, `title` optional. -/
structure TitleProp where
  title : Option (List RichItem)
deriving DecidableEq

/-- The value of the `Description` property: `{ rich_text: [...] }`. -/
structure RichTextProp where
  rich_text : Option (List RichItem)
deriving DecidableEq

/-- A select object `{ name: ... }`; `name` is read without chaining. -/
structure SelectObj where
  name : String
deriving DecidableEq

/-- The value of the `Status` property: `{ select: {...} }`, `select` optional. -/
structure SelectProp where
  select : Option SelectObj
deriving DecidableEq

/-- One item of a `multi_select` array: `{ name: tag }`. -/
structure MultiSelectItem where
  name : String
deriving DecidableEq

/-- The value of the `Tags` property: `{ multi_select: [...] }`. -/
structure MultiSelectProp where
  multi_select : Option (List MultiSelectItem)
deriving DecidableEq

/-- The properties mapping of a Notion page, restricted to the four fields
the connector reads and writes (`Name`, `Description`, `Status`, `Tags`);
each may be absent, as `transformNotionToMCP` reads them via `?.`. -/
structure NotionProps where
  Name : Option TitleProp
  Description : Option RichTextProp
  Status : Option SelectProp
  Tags : Option MultiSelectProp
deriving DecidableEq

/-- A raw page object as returned inside `response.results` by the remote
query API, with the snake_case field names the code reads. -/
structure RawPage where
  id : String
  properties : NotionProps
  created_time : String
  last_edited_time : String
deriving DecidableEq

/-- A RemoteRecord: the camelCase shape `fetchNotionRecords` maps each raw
page into, and the input shape of `transformNotionToMCP`. -/
structure NotionPage where
  id : String
  properties : NotionProps
  createdTime : String
  lastEditedTime : String
deriving DecidableEq

/-- Input of `transformMCPToNotion`: an MCP use case record, every field
optional (the transform applies `|| default` to each). -/
structure UseCaseData where
  name : Option String
  description : Option String
  status : Option String
  tags : Option (List String)
deriving DecidableEq

/-- Output of `transformNotionToMCP`: the MCP-formatted record. -/
structure MCPRecord where
  notionPageId : String
  name : String
  description : String
  status : String
  tags : List String
  createdAt : String
  updatedAt : String
deriving DecidableEq

/-- A local record as consumed by the sync push loop, which reads only
`record.properties` and `record.notionPageId`. -/
structure MCPSyncRecord where
  properties : NotionProps
  notionPageId : Option String
deriving DecidableEq

/-- An opaque filter object passed through to the remote query; being an
object, it is always JS-truthy when present. -/
structure Filter where
  pred : String
deriving DecidableEq

/-! ### Remote client, configuration and the remote API environment -/

/-- The Notion client handle: `new Client({ auth: apiKey })`. -/
structure Client where
  auth : String
deriving DecidableEq

/-- The `notionConfig` object: credential and default database identifier
read from the process environment (empty string when unset). -/
structure NotionConfig where
  apiKey : String
  databaseId : String
deriving DecidableEq

/-- The message of the MissingCredential error thrown by `initializeClient`. -/
def credentialErrorMessage : String :=
  "NOTION_API_KEY environment variable is required"

/-- One network call issued against the remote API, recorded for tracing:
a database query, a page creation, or a page update. -/
inductive NetCall where
  | query (databaseId : String) (filter : Option Filter)
  | create (databaseId : String) (properties : NotionProps)
  | update (pageId : String) (properties : NotionProps)
deriving DecidableEq

/-- True exactly on query calls (pull-phase network activity). -/
def NetCall.isQuery : NetCall → Bool
  | NetCall.query _ _ => true
  | NetCall.create _ _ => false
  | NetCall.update _ _ => false

/-- The remote API boundary: the configuration plus one response function per
remote operation.  `ρ` is the opaque type of raw create/update responses;
errors carry the JS error message. -/
structure Env (ρ : Type) where
  config : NotionConfig
  queryResult : String → Option Filter → Except String (List RawPage)
  createResult : String → NotionProps → Except String ρ
  updateResult : String → NotionProps → Except String ρ

/-- The `{pulled, pushed, errors}` summary accumulated by `syncNotionData`. -/
structure SyncResult (ρ : Type) where
  pulled : List NotionPage
  pushed : List ρ
  errors : List (MCPSyncRecord × String)
deriving DecidableEq

/-- The options object of `syncNotionData`; destructuring defaults are
applied inside the function. -/
structure SyncOptions where
  databaseId : Option String := none
  direction : Option String := none
  mcpRecords : Option (List MCPSyncRecord) := none

/-! ### The connector operations -/

/-- `initializeClient()`: throws when the credential is falsy (unset or
empty), otherwise constructs the client and stores it in the module-scoped
singleton.  The second component is the singleton after the call. -/
def initializeClient (cfg : NotionConfig) (st : Option Client) :
    Except String Client × Option Client :=
  if cfg.apiKey = "" then
    (Except.error credentialErrorMessage, st)
  else
    let c : Client := { auth := cfg.apiKey }
    (Except.ok c, some c)

/-- The `if (!notion) initializeClient();` idiom at the top of every
operation needing the client: use the cached singleton, else initialize. -/
def ensureClient (cfg : NotionConfig) (st : Option Client) :
    Except String Client × Option Client :=
  match st with
  | some c => (Except.ok c, some c)
  | none => initializeClient cfg none

/-- `fetchNotionRecords(databaseId, filter = null)`: ensure the client, query
the database (falling back to the configured default id when `databaseId` is
falsy, attaching the filter only when present), and map each returned page
to its camelCase RemoteRecord shape.  The catch block only logs and
rethrows, so errors pass through unchanged. -/
def fetchNotionRecords {ρ : Type} (env : Env ρ) (st : Option Client)
    (databaseId : Option String) (filter : Option Filter := none) :
    Except String (List NotionPage) × Option Client × List NetCall :=
  match ensureClient env.config st with
  | (Except.error e, st1) => (Except.error e, st1, [])
  | (Except.ok _, st1) =>
    let dbid := jsOr databaseId env.config.databaseId
    match env.queryResult dbid filter with
    | Except.error e => (Except.error e, st1, [NetCall.query dbid filter])
    | Except.ok pages =>
      (Except.ok (pages.map fun page =>
          { id := page.id
            properties := page.properties
            createdTime := page.created_time
            lastEditedTime := page.last_edited_time }),
       st1, [NetCall.query dbid filter])

/-- `pushNotionRecord(databaseId, data, pageId = null)`: ensure the client;
if `pageId` is truthy issue one update against it, otherwise issue one
create under the (defaulted) database; return the raw remote response.
The catch block only logs and rethrows. -/
def pushNotionRecord {ρ : Type} (env : Env ρ) (st : Option Client)
    (databaseId : Option String) (data : NotionProps)
    (pageId : Option String := none) :
    Except String ρ × Option Client × List NetCall :=
  match ensureClient env.config st with
  | (Except.error e, st1) => (Except.error e, st1, [])
  | (Except.ok _, st1) =>
    if jsTruthy pageId then
      let pid := pageId.getD ""
      (env.updateResult pid data, st1, [NetCall.update pid data])
    else
      let dbid := jsOr databaseId env.config.databaseId
      (env.createResult dbid data, st1, [NetCall.create dbid data])

/-- The `for (const record of mcpRecords)` loop of `syncNotionData`: push
each record with its properties and `notionPageId || null`; on success
append the raw response to `pushed`, on failure append `{record, error
message}` to `errors` and continue with the next record. -/
def syncPushLoop {ρ : Type} (env : Env ρ) (st : Option Client)
    (databaseId : Option String) :
    List MCPSyncRecord →
      (List ρ × List (MCPSyncRecord × String)) × Option Client × List NetCall
  | [] => (([], []), st, [])
  | r :: rest =>
    match pushNotionRecord env st databaseId r.properties (jsOrNull r.notionPageId) with
    | (res, st1, calls1) =>
      match syncPushLoop env st1 databaseId rest with
      | ((pushed, errors), st2, calls2) =>
        match res with
        | Except.ok v => ((v :: pushed, errors), st2, calls1 ++ calls2)
        | Except.error e => ((pushed, (r, e) :: errors), st2, calls1 ++ calls2)

/-- `syncNotionData(options)`: destructure options with defaults
(`direction = 'pull'`, `mcpRecords = []`); when the direction pulls, fetch
all records (an error propagates, abandoning the push phase); when the
direction pushes, run the per-record push loop; return the accumulated
`{pulled, pushed, errors}`.  The outer catch only logs and rethrows. -/
def syncNotionData {ρ : Type} (env : Env ρ) (st : Option Client)
    (options : SyncOptions) :
    Except String (SyncResult ρ) × Option Client × List NetCall :=
  let databaseId := options.databaseId
  let direction := options.direction.getD "pull"
  let mcpRecords := options.mcpRecords.getD []
  let pullStep :=
    if direction = "pull" ∨ direction = "bidirectional" then
      fetchNotionRecords env st databaseId
    else
      (Except.ok [], st, [])
  match pullStep with
  | (Except.error e, st1, calls1) => (Except.error e, st1, calls1)
  | (Except.ok pulled, st1, calls1) =>
    if direction = "push" ∨ direction = "bidirectional" then
      match syncPushLoop env st1 databaseId mcpRecords with
      | ((pushed, errors), st2, calls2) =>
        (Except.ok { pulled := pulled, pushed := pushed, errors := errors },
         st2, calls1 ++ calls2)
    else
      (Except.ok { pulled := pulled, pushed := [], errors := [] }, st1, calls1)

/-! ### The two schema transforms -/

/-- `transformMCPToNotion(useCaseData)`: build the Notion properties object,
defaulting `name` to `"Untitled"`, `description` to `""`, `status` to
`"Draft"` and `tags` to the empty list. -/
def transformMCPToNotion (useCaseData : UseCaseData) : NotionProps :=
  { Name := some { title := some [
      { text := some { content := jsOr useCaseData.name "Untitled" } }] }
    Description := some { rich_text := some [
      { text := some { content := jsOr useCaseData.description "" } }] }
    Status := some { select := some { name := jsOr useCaseData.status "Draft" } }
    Tags := some { multi_select := some ((useCaseData.tags.getD []).map
      fun tag => { name := tag }) } }

/-- `transformNotionToMCP(notionPage)`: read each nested property path with
optional chaining, defaulting missing scalars to the empty string and
missing tags to the empty list. -/
def transformNotionToMCP (notionPage : NotionPage) : MCPRecord :=
  let props := notionPage.properties
  { notionPageId := notionPage.id
    name := ((((props.Name.bind TitleProp.title).bind List.head?).bind
      RichItem.text).map TextObj.content).getD ""
    description := ((((props.Description.bind RichTextProp.rich_text).bind
      List.head?).bind RichItem.text).map TextObj.content).getD ""
    status := ((props.Status.bind SelectProp.select).map SelectObj.name).getD ""
    tags := ((props.Tags.bind MultiSelectProp.multi_select).map
      (List.map MultiSelectItem.name)).getD []
    createdAt := notionPage.createdTime
    updatedAt := notionPage.lastEditedTime }

/-- The outcome of pushing one record once the client singleton is
initialized: what `pushNotionRecord` returns for the record's properties and
`notionPageId || null` (independent of which concrete client is cached). -/
def pushOutcome {ρ : Type} (env : Env ρ) (databaseId : Option String)
    (r : MCPSyncRecord) : Except String ρ :=
  (pushNotionRecord env (some { auth := env.config.apiKey }) databaseId
    r.properties (jsOrNull r.notionPageId)).1

/-! ### Concrete sample environments and records -/

/-- A sample environment over response type `Nat` in which every remote call
succeeds: queries return no pages, create responds `5`, update responds `7`. -/
def envOk : Env Nat :=
  { config := { apiKey := "key1", databaseId := "db-default" }
    queryResult := fun _ _ => Except.ok []
    createResult := fun _ _ => Except.ok 5
    updateResult := fun _ _ => Except.ok 7 }

/-- A sample environment in which creating a page whose `Name` property is
absent fails with message "bad"; every other call succeeds. -/
def envMix : Env Nat :=
  { config := { apiKey := "key1", databaseId := "db-default" }
    queryResult := fun _ _ => Except.ok []
    createResult := fun _ p => if p.Name = none then Except.error "bad" else Except.ok 5
    updateResult := fun _ _ => Except.ok 7 }

/-- A sample environment with no credential configured. -/
def envNoKey : Env Nat :=
  { envOk with config := { apiKey := "", databaseId := "db-default" } }

/-- A sample environment whose query operation always fails with "boom". -/
def envPullFail : Env Nat :=
  { envOk with queryResult := fun _ _ => Except.error "boom" }

/-- The properties object with every field absent. -/
def emptyProps : NotionProps :=
  { Name := none, Description := none, Status := none, Tags := none }

/-- A fully populated properties object used by the sample records. -/
def propsFull : NotionProps :=
  transformMCPToNotion
    { name := some "A", description := some "d", status := some "Active",
      tags := some ["x", "y"] }

/-- A sample local record with no remote back-reference. -/
def recNew : MCPSyncRecord := { properties := propsFull, notionPageId := none }

/-- A sample local record whose create push fails under `envMix`. -/
def recBad : MCPSyncRecord := { properties := emptyProps, notionPageId := none }

/-- A sample local record carrying a remote page identifier. -/
def recUpd : MCPSyncRecord := { properties := propsFull, notionPageId := some "pg-1" }

/-- A sample cached client handle. -/
def clientK : Client := { auth := "key1" }

/-- A sample local record whose `notionPageId` is the empty string. -/
def recEmptyId : MCPSyncRecord := { properties := propsFull, notionPageId := some "" }

/-- A sample remote record with every property absent. -/
def pageEmpty : NotionPage :=
  { id := "p0", properties := emptyProps, createdTime := "c0", lastEditedTime := "l0" }

/-- A sample use case record with every field absent. -/
def ucEmpty : UseCaseData :=
  { name := none, description := none, status := none, tags := none }

/-! ### Helper lemmas about the operations -/

/-- With a cached client, `pushNotionRecord` issues exactly one call, chosen
by the truthiness of `pageId`, and returns the raw remote response. -/
theorem pushNotionRecord_some {ρ : Type} (env : Env ρ) (c : Client)
    (db : Option String) (props : NotionProps) (pid : Option String) :
    pushNotionRecord env (some c) db props pid =
      (if jsTruthy pid then env.updateResult (pid.getD "") props
       else env.createResult (jsOr db env.config.databaseId) props,
       some c,
       if jsTruthy pid then [NetCall.update (pid.getD "") props]
       else [NetCall.create (jsOr db env.config.databaseId) props]) := by
  cases h : jsTruthy pid <;> simp [pushNotionRecord, ensureClient, h]

/-- With no cached client but a configured credential, `pushNotionRecord`
behaves as if the freshly initialized client had been cached. -/
theorem pushNotionRecord_none {ρ : Type} (env : Env ρ)
    (h : ¬ env.config.apiKey = "") (db : Option String) (props : NotionProps)
    (pid : Option String) :
    pushNotionRecord env none db props pid =
      pushNotionRecord env (some { auth := env.config.apiKey }) db props pid := by
  simp [pushNotionRecord, ensureClient, initializeClient, h]

/-- With no cached client and no credential, `pushNotionRecord` fails with
the MissingCredential message before issuing any network call. -/
theorem pushNotionRecord_noKey {ρ : Type} (env : Env ρ)
    (h : env.config.apiKey = "") (db : Option String) (props : NotionProps)
    (pid : Option String) :
    pushNotionRecord env none db props pid =
      (Except.error credentialErrorMessage, none, []) := by
  simp [pushNotionRecord, ensureClient, initializeClient, h]

/-- With a cached client, the sync push loop produces exactly the successful
raw responses (in input order) and the failing `(record, message)` pairs
(in input order), as given by each record's `pushOutcome`. -/
theorem syncPushLoop_some {ρ : Type} (env : Env ρ) (db : Option String)
    (records : List MCPSyncRecord) :
    ∀ c : Client,
      (syncPushLoop env (some c) db records).1 =
        (records.filterMap fun r => (pushOutcome env db r).toOption,
         records.filterMap fun r =>
           match pushOutcome env db r with
           | Except.ok _ => none
           | Except.error e => some (r, e)) := by
  induction records with
  | nil => intro c; rfl
  | cons r rest ih =>
    intro c
    have hpush := pushNotionRecord_some env c db r.properties (jsOrNull r.notionPageId)
    have hA : (if jsTruthy (jsOrNull r.notionPageId) then
          env.updateResult ((jsOrNull r.notionPageId).getD "") r.properties
        else env.createResult (jsOr db env.config.databaseId) r.properties)
        = pushOutcome env db r := by
      rw [pushOutcome, pushNotionRecord_some]
    rw [hA] at hpush
    rcases hrec : syncPushLoop env (some c) db rest with ⟨⟨P, E⟩, st2, calls2⟩
    have hih := ih c
    rw [hrec] at hih
    have hP := congrArg Prod.fst hih
    have hE := congrArg Prod.snd hih
    simp only at hP hE
    simp only [syncPushLoop, hpush, hrec]
    cases hres : pushOutcome env db r with
    | ok v =>
      simp [List.filterMap_cons, hres, hP, hE, Except.toOption]
    | error e =>
      simp [List.filterMap_cons, hres, hP, hE, Except.toOption]

/-- With no cached client but a configured credential, the push loop yields
the same pushed/errors lists as with the freshly initialized client. -/
theorem syncPushLoop_none {ρ : Type} (env : Env ρ)
    (h : ¬ env.config.apiKey = "") (db : Option String)
    (records : List MCPSyncRecord) :
    (syncPushLoop env none db records).1 =
      (syncPushLoop env (some { auth := env.config.apiKey }) db records).1 := by
  cases records with
  | nil => rfl
  | cons r rest => simp only [syncPushLoop, pushNotionRecord_none env h]

/-- Whenever the client is cached or a credential is configured, the push
loop is exactly characterised by each record's `pushOutcome`: successful raw
responses and failing `(record, message)` pairs, each in input order. -/
theorem syncPushLoop_spec {ρ : Type} (env : Env ρ) (db : Option String)
    (records : List MCPSyncRecord) (st : Option Client)
    (h : st = none → ¬ env.config.apiKey = "") :
    (syncPushLoop env st db records).1 =
      (records.filterMap fun r => (pushOutcome env db r).toOption,
       records.filterMap fun r =>
         match pushOutcome env db r with
         | Except.ok _ => none
         | Except.error e => some (r, e)) := by
  cases st with
  | none =>
    rw [syncPushLoop_none env (h rfl) db records]
    exact syncPushLoop_some env db records _
  | some c => exact syncPushLoop_some env db records c

/-- With no cached client and no credential, every iteration of the push
loop fails with the MissingCredential message, no network call is made, and
the singleton stays unset. -/
theorem syncPushLoop_noKey {ρ : Type} (env : Env ρ)
    (h : env.config.apiKey = "") (db : Option String)
    (records : List MCPSyncRecord) :
    syncPushLoop env none db records =
      (([], records.map fun r => (r, credentialErrorMessage)), none, []) := by
  induction records with
  | nil => rfl
  | cons r rest ih =>
    simp only [syncPushLoop, pushNotionRecord_noKey env h, ih, List.map_cons,
      List.nil_append]

/-- With a cached client, `fetchNotionRecords` issues exactly one query
against the (defaulted) database with the filter passed through, and maps
the returned pages to their camelCase shape. -/
theorem fetchNotionRecords_some {ρ : Type} (env : Env ρ) (c : Client)
    (db : Option String) (f : Option Filter) :
    fetchNotionRecords env (some c) db f =
      ((env.queryResult (jsOr db env.config.databaseId) f).map fun pages =>
         pages.map fun page =>
           { id := page.id
             properties := page.properties
             createdTime := page.created_time
             lastEditedTime := page.last_edited_time },
       some c, [NetCall.query (jsOr db env.config.databaseId) f]) := by
  cases hq : env.queryResult (jsOr db env.config.databaseId) f <;>
    simp [fetchNotionRecords, ensureClient, hq, Except.map]

/-- With no cached client and no credential, `fetchNotionRecords` fails with
the MissingCredential message before issuing any network call. -/
theorem fetchNotionRecords_noKey {ρ : Type} (env : Env ρ)
    (h : env.config.apiKey = "") (db : Option String) (f : Option Filter) :
    fetchNotionRecords env none db f =
      (Except.error credentialErrorMessage, none, []) := by
  simp [fetchNotionRecords, ensureClient, initializeClient, h]

/-- Every network call issued by `fetchNotionRecords` is a query. -/
theorem fetchNotionRecords_calls_query {ρ : Type} (env : Env ρ)
    (st : Option Client) (db : Option String) (f : Option Filter) :
    ∀ k ∈ (fetchNotionRecords env st db f).2.2, k.isQuery = true := by
  cases st with
  | none =>
    by_cases hk : env.config.apiKey = ""
    · simp [fetchNotionRecords_noKey env hk]
    · cases hq : env.queryResult (jsOr db env.config.databaseId) f <;>
        simp [fetchNotionRecords, ensureClient, initializeClient, hk, hq,
          NetCall.isQuery]
  | some c =>
    cases hq : env.queryResult (jsOr db env.config.databaseId) f <;>
      simp [fetchNotionRecords, ensureClient, hq, NetCall.isQuery]

/-! ### Claim theorems -/

/-- C1: for every record sequence and every pattern of per-record push
outcomes (as determined by the remote environment), a `direction:"push"`
sync isolates failures per record: the call returns normally, `pushed` is
exactly the raw remote responses of the successful pushes in input order,
and `errors` is exactly the `(record, error message)` pairs of the failing
pushes in input order. -/
theorem sync_push_isolation (ρ : Type) (env : Env ρ) (st : Option Client)
    (db : Option String) (records : List MCPSyncRecord)
    (hkey : ¬ env.config.apiKey = "") :
    (syncNotionData env st
        { databaseId := db, direction := some "push", mcpRecords := some records }).1
      = Except.ok
          { pulled := []
            pushed := records.filterMap fun r => (pushOutcome env db r).toOption
            errors := records.filterMap fun r =>
              match pushOutcome env db r with
              | Except.ok _ => none
              | Except.error e => some (r, e) } := by
  have hnp : ¬(("push" : String) = "pull" ∨ ("push" : String) = "bidirectional") := by
    decide
  have hpp : (("push" : String) = "push" ∨ ("push" : String) = "bidirectional") :=
    Or.inl rfl
  rcases hloop : syncPushLoop env st db records with ⟨⟨P, E⟩, st2, calls2⟩
  have hspec := syncPushLoop_spec env db records st (fun _ => hkey)
  rw [hloop] at hspec
  have hP := congrArg Prod.fst hspec
  have hE := congrArg Prod.snd hspec
  simp only at hP hE
  simp only [syncNotionData, Option.getD_some, if_neg hnp, if_pos hpp, hloop,
    hP, hE]
  simp

/-- Witness for C1 at a concrete input: records `recNew`, `recBad`, `recUpd`
under `envMix`, where the middle create fails; the sync returns the two
successful raw responses and the single error pair, in order. -/
theorem sync_push_isolation_witness :
    (syncNotionData envMix none
        { databaseId := none, direction := some "push",
          mcpRecords := some [recNew, recBad, recUpd] }).1
      = Except.ok { pulled := [], pushed := [5, 7], errors := [(recBad, "bad")] } := by
  rw [sync_push_isolation Nat envMix none none [recNew, recBad, recUpd] (by decide)]
  rfl

/-- C2: if the pull phase of a `"bidirectional"` (or `"pull"`) sync fails,
`syncNotionData` propagates that same error (no `SyncResult` is returned)
and every network call made was a query — zero push attempts occur. -/
theorem sync_pull_fatality (ρ : Type) (env : Env ρ) (st : Option Client)
    (db : Option String) (mcp : Option (List MCPSyncRecord)) (d e : String)
    (hd : d = "pull" ∨ d = "bidirectional")
    (hfail : (fetchNotionRecords env st db).1 = Except.error e) :
    (syncNotionData env st
        { databaseId := db, direction := some d, mcpRecords := mcp }).1
      = Except.error e
    ∧ ∀ k ∈ (syncNotionData env st
        { databaseId := db, direction := some d, mcpRecords := mcp }).2.2,
        k.isQuery = true := by
  have hsync : syncNotionData env st
        { databaseId := db, direction := some d, mcpRecords := mcp }
      = (Except.error e, (fetchNotionRecords env st db).2.1,
         (fetchNotionRecords env st db).2.2) := by
    rcases hfe : fetchNotionRecords env st db with ⟨res, st1, calls1⟩
    rw [hfe] at hfail
    simp only at hfail
    subst hfail
    simp only [syncNotionData, Option.getD_some, if_pos hd, hfe]
  refine ⟨congrArg Prod.fst hsync, ?_⟩
  rw [hsync]
  exact fetchNotionRecords_calls_query env st db none

/-- Witness for C2 at a concrete input: under `envPullFail` the query fails
with "boom"; a bidirectional sync propagates "boom" and issues no push. -/
theorem sync_pull_fatality_witness :
    (syncNotionData envPullFail none
        { databaseId := none, direction := some "bidirectional",
          mcpRecords := some [recNew] }).1
      = Except.error "boom"
    ∧ ∀ k ∈ (syncNotionData envPullFail none
        { databaseId := none, direction := some "bidirectional",
          mcpRecords := some [recNew] }).2.2,
        k.isQuery = true :=
  sync_pull_fatality Nat envPullFail none none (some [recNew]) "bidirectional"
    "boom" (Or.inr rfl) rfl

/-- C9: any direction other than `"pull"`, `"push"` and `"bidirectional"`
makes `syncNotionData` a silent no-op: no network call is issued, the
singleton is untouched, and the empty result is returned normally. -/
theorem sync_unrecognized_direction (ρ : Type) (env : Env ρ) (st : Option Client)
    (db : Option String) (mcp : Option (List MCPSyncRecord)) (d : String)
    (h1 : ¬ d = "pull") (h2 : ¬ d = "push") (h3 : ¬ d = "bidirectional") :
    syncNotionData env st
        { databaseId := db, direction := some d, mcpRecords := mcp }
      = (Except.ok { pulled := [], pushed := [], errors := [] }, st, []) := by
  have hna : ¬(d = "pull" ∨ d = "bidirectional") := by tauto
  have hnb : ¬(d = "push" ∨ d = "bidirectional") := by tauto
  simp only [syncNotionData, Option.getD_some, if_neg hna, if_neg hnb]

/-- Witness for C9 at a concrete input: direction `"both"` is a no-op. -/
theorem sync_unrecognized_direction_witness :
    syncNotionData envOk none
        { databaseId := none, direction := some "both", mcpRecords := some [recNew] }
      = (Except.ok { pulled := [], pushed := [], errors := [] }, none, []) :=
  sync_unrecognized_direction Nat envOk none none (some [recNew]) "both"
    (by decide) (by decide) (by decide)

/-- C3 counterexample: with no credential configured, `syncNotionData` with
direction `"push"` and a non-empty record list does NOT raise
MissingCredential — it returns normally, recording the credential failure
as a per-record error entry, with no network attempt. -/
theorem credential_gate_cex :
    (syncNotionData envNoKey none
        { databaseId := none, direction := some "push",
          mcpRecords := some [recNew] }).1
      = Except.ok
          { pulled := [], pushed := [],
            errors := [(recNew, credentialErrorMessage)] }
    ∧ (syncNotionData envNoKey none
        { databaseId := none, direction := some "push",
          mcpRecords := some [recNew] }).2.2 = [] :=
  ⟨rfl, rfl⟩

/-- C3 (amended): with no credential configured and no cached client,
`fetchNotionRecords` and `pushNotionRecord` raise MissingCredential before
any network attempt, and so does `syncNotionData` for a fetching direction;
`syncNotionData` with direction `"push"` also makes no network attempt but
returns normally, recording a MissingCredential error entry per record. -/
theorem credential_gate_amended (ρ : Type) (env : Env ρ)
    (hkey : env.config.apiKey = "") (db : Option String) (f : Option Filter)
    (props : NotionProps) (pid : Option String) (mcp : List MCPSyncRecord)
    (d : String) (hd : d = "pull" ∨ d = "bidirectional") :
    fetchNotionRecords env none db f = (Except.error credentialErrorMessage, none, [])
    ∧ pushNotionRecord env none db props pid
        = (Except.error credentialErrorMessage, none, [])
    ∧ syncNotionData env none
        { databaseId := db, direction := some d, mcpRecords := some mcp }
        = (Except.error credentialErrorMessage, none, [])
    ∧ syncNotionData env none
        { databaseId := db, direction := some "push", mcpRecords := some mcp }
        = (Except.ok
            { pulled := [], pushed := [],
              errors := mcp.map fun r => (r, credentialErrorMessage) }, none, []) := by
  have hnp : ¬(("push" : String) = "pull" ∨ ("push" : String) = "bidirectional") := by
    decide
  have hpp : (("push" : String) = "push" ∨ ("push" : String) = "bidirectional") :=
    Or.inl rfl
  refine ⟨fetchNotionRecords_noKey env hkey db f,
    pushNotionRecord_noKey env hkey db props pid, ?_, ?_⟩
  · simp only [syncNotionData, Option.getD_some, if_pos hd,
      fetchNotionRecords_noKey env hkey]
  · simp only [syncNotionData, Option.getD_some, if_neg hnp, if_pos hpp,
      syncPushLoop_noKey env hkey]
    simp

/-- Witness for the amended C3 at a concrete input. -/
theorem credential_gate_amended_witness :
    envNoKey.config.apiKey = ""
    ∧ fetchNotionRecords envNoKey none none none
        = (Except.error credentialErrorMessage, none, [])
    ∧ pushNotionRecord envNoKey none none emptyProps none
        = (Except.error credentialErrorMessage, none, [])
    ∧ syncNotionData envNoKey none
        { databaseId := none, direction := some "pull", mcpRecords := some [recNew] }
        = (Except.error credentialErrorMessage, none, [])
    ∧ syncNotionData envNoKey none
        { databaseId := none, direction := some "push", mcpRecords := some [recNew] }
        = (Except.ok
            { pulled := [], pushed := [],
              errors := [(recNew, credentialErrorMessage)] }, none, []) := by
  have h := credential_gate_amended Nat envNoKey rfl none none emptyProps none
    [recNew] "pull" (Or.inl rfl)
  exact ⟨rfl, h.1, h.2.1, h.2.2.1, by rw [h.2.2.2]; rfl⟩

/-- C7 counterexample: with `pageId` present but equal to the empty string,
`pushNotionRecord` issues a create, not an update targeting that pageId. -/
theorem push_branch_present_cex :
    (pushNotionRecord envOk (some clientK) (some "db-x") emptyProps (some "")).2.2
      = [NetCall.create "db-x" emptyProps]
    ∧ (pushNotionRecord envOk (some clientK) (some "db-x") emptyProps (some "")).2.2
      ≠ [NetCall.update "" emptyProps] :=
  ⟨rfl, by decide⟩

/-- C7 (amended): with a cached client, if `pageId` is present and non-empty
(JS-truthy) `pushNotionRecord` issues exactly one update targeting that
pageId with the given properties; if `pageId` is absent or empty it issues
exactly one create under the (defaulted) database; in both cases the raw
remote response is returned unchanged. -/
theorem push_branch_selection (ρ : Type) (env : Env ρ) (c : Client)
    (db : Option String) (props : NotionProps) (pid : Option String) :
    (jsTruthy pid = true →
      pushNotionRecord env (some c) db props pid
        = (env.updateResult (pid.getD "") props, some c,
           [NetCall.update (pid.getD "") props]))
    ∧ (jsTruthy pid = false →
      pushNotionRecord env (some c) db props pid
        = (env.createResult (jsOr db env.config.databaseId) props, some c,
           [NetCall.create (jsOr db env.config.databaseId) props])) := by
  constructor <;> intro h <;> rw [pushNotionRecord_some] <;> simp [h]

/-- Witness for the amended C7 at a concrete input: a non-empty pageId
yields the update targeting it, and the raw response is returned. -/
theorem push_branch_selection_witness :
    jsTruthy (some "page-123") = true
    ∧ pushNotionRecord envOk (some clientK) (some "db-x") emptyProps (some "page-123")
        = (Except.ok 7, some clientK, [NetCall.update "page-123" emptyProps]) := by
  refine ⟨rfl, ?_⟩
  have h := (push_branch_selection Nat envOk clientK (some "db-x") emptyProps
    (some "page-123")).1 rfl
  rw [h]; rfl

/-- C8: with a cached client, `fetchNotionRecords` issues exactly one query,
with the filter passed through unchanged (present or absent); the queried
database is the configured default when `databaseId` is omitted or empty,
and the explicit identifier when one is supplied. -/
theorem fetch_database_fallback (ρ : Type) (env : Env ρ) (c : Client)
    (db : Option String) (f : Option Filter) :
    (fetchNotionRecords env (some c) db f).2.2
      = [NetCall.query (jsOr db env.config.databaseId) f]
    ∧ ((db = none ∨ db = some "") →
        jsOr db env.config.databaseId = env.config.databaseId)
    ∧ (∀ dbid : String, db = some dbid → ¬ dbid = "" →
        jsOr db env.config.databaseId = dbid) := by
  refine ⟨?_, ?_, ?_⟩
  · rw [fetchNotionRecords_some]
  · rintro (h | h) <;> subst h <;> simp [jsOr]
  · rintro dbid rfl h
    simp [jsOr, h]

/-- Witness for C8 at concrete inputs: an empty id falls back to the
configured default, an explicit id is used as given, and the filter is
passed through as supplied. -/
theorem fetch_database_fallback_witness :
    (fetchNotionRecords envOk (some clientK) (some "") (some { pred := "p" })).2.2
      = [NetCall.query "db-default" (some { pred := "p" })]
    ∧ (fetchNotionRecords envOk (some clientK) (some "explicit-id") none).2.2
      = [NetCall.query "explicit-id" none] := by
  have h1 := fetch_database_fallback Nat envOk clientK (some "") (some { pred := "p" })
  have h2 := fetch_database_fallback Nat envOk clientK (some "explicit-id") none
  constructor
  · rw [h1.1, h1.2.1 (Or.inr rfl)]; rfl
  · rw [h2.1, h2.2.2 "explicit-id" rfl (by decide)]

/-- C10: the create/update choice is decided by JS truthiness, not by the
argument being supplied: an empty-string `pageId` takes the create branch,
and a sync record with a falsy `notionPageId` (absent or empty) is pushed
as a create under the database. -/
theorem push_truthiness (ρ : Type) (env : Env ρ) (c : Client)
    (db : Option String) (props : NotionProps) (r : MCPSyncRecord)
    (hr : jsTruthy r.notionPageId = false) :
    (pushNotionRecord env (some c) db props (some "")).2.2
      = [NetCall.create (jsOr db env.config.databaseId) props]
    ∧ (syncNotionData env (some c)
        { databaseId := db, direction := some "push", mcpRecords := some [r] }).2.2
      = [NetCall.create (jsOr db env.config.databaseId) r.properties] := by
  have hnull : jsOrNull r.notionPageId = none := by simp [jsOrNull, hr]
  have hnp : ¬(("push" : String) = "pull" ∨ ("push" : String) = "bidirectional") := by
    decide
  have hpp : (("push" : String) = "push" ∨ ("push" : String) = "bidirectional") :=
    Or.inl rfl
  constructor
  · rw [pushNotionRecord_some]
    simp [jsTruthy]
  · simp only [syncNotionData, Option.getD_some, if_neg hnp, if_pos hpp,
      syncPushLoop, hnull, pushNotionRecord_some, jsTruthy]
    cases hc : env.createResult (jsOr db env.config.databaseId) r.properties <;>
      simp [hc]

/-- Witness for C10 at a concrete input: a record whose `notionPageId` is
the empty string is pushed as a create. -/
theorem push_truthiness_witness :
    jsTruthy recEmptyId.notionPageId = false
    ∧ (pushNotionRecord envOk (some clientK) (some "db-x") emptyProps (some "")).2.2
        = [NetCall.create "db-x" emptyProps]
    ∧ (syncNotionData envOk (some clientK)
        { databaseId := some "db-x", direction := some "push",
          mcpRecords := some [recEmptyId] }).2.2
      = [NetCall.create "db-x" recEmptyId.properties] :=
  ⟨rfl, (push_truthiness Nat envOk clientK (some "db-x") emptyProps recEmptyId rfl).1,
   (push_truthiness Nat envOk clientK (some "db-x") emptyProps recEmptyId rfl).2⟩

/-- C4: a fully populated local record survives the round trip through
`transformMCPToNotion` (stored as page properties) and back through
`transformNotionToMCP`: name, description, status and the tag list are
reproduced exactly. -/
theorem transform_round_trip (pid ct lt n d s : String) (tags : List String)
    (hn : ¬ n = "") (hd : ¬ d = "") (hs : ¬ s = "") (ht : ¬ tags = []) :
    transformNotionToMCP
      { id := pid
        properties := transformMCPToNotion
          { name := some n, description := some d, status := some s, tags := some tags }
        createdTime := ct
        lastEditedTime := lt }
      = { notionPageId := pid, name := n, description := d, status := s,
          tags := tags, createdAt := ct, updatedAt := lt } := by
  simp [transformNotionToMCP, transformMCPToNotion, jsOr, hn, hd, hs,
    List.map_map]
  exact List.map_id tags

/-- Witness for C4 at a concrete input. -/
theorem transform_round_trip_witness :
    transformNotionToMCP
      { id := "p9"
        properties := transformMCPToNotion
          { name := some "Alice", description := some "desc",
            status := some "Active", tags := some ["t1", "t2"] }
        createdTime := "c9"
        lastEditedTime := "l9" }
      = { notionPageId := "p9", name := "Alice", description := "desc",
          status := "Active", tags := ["t1", "t2"], createdAt := "c9",
          updatedAt := "l9" } :=
  transform_round_trip "p9" "c9" "l9" "Alice" "desc" "Active" ["t1", "t2"]
    (by decide) (by decide) (by decide) (by decide)

/-- C5: `transformMCPToNotion` on the empty record yields the documented
defaults in remote-schema shape, and `transformNotionToMCP` on a remote
record with empty properties yields the all-default local record. -/
theorem transform_defaults :
    transformMCPToNotion ucEmpty
      = { Name := some { title := some [{ text := some { content := "Untitled" } }] }
          Description := some { rich_text := some [{ text := some { content := "" } }] }
          Status := some { select := some { name := "Draft" } }
          Tags := some { multi_select := some [] } }
    ∧ transformNotionToMCP
        { id := "p1", properties := emptyProps, createdTime := "t1",
          lastEditedTime := "t2" }
      = { notionPageId := "p1", name := "", description := "", status := "",
          tags := [], createdAt := "t1", updatedAt := "t2" } :=
  ⟨rfl, rfl⟩

/-- C6: both transforms are total functions of their embedded input shapes
(they are plain Lean functions, so they never raise); on the read side every
missing nested path resolves to the empty-string or empty-list default, and
on the write side every produced property field is present. -/
theorem transforms_defensive_defaults (page : NotionPage) (u : UseCaseData) :
    (((page.properties.Name.bind TitleProp.title).bind List.head?).bind RichItem.text
        = none → (transformNotionToMCP page).name = "")
    ∧ (((page.properties.Description.bind RichTextProp.rich_text).bind
        List.head?).bind RichItem.text = none →
        (transformNotionToMCP page).description = "")
    ∧ (page.properties.Status.bind SelectProp.select = none →
        (transformNotionToMCP page).status = "")
    ∧ (page.properties.Tags.bind MultiSelectProp.multi_select = none →
        (transformNotionToMCP page).tags = [])
    ∧ (transformMCPToNotion u).Name.isSome = true
    ∧ (transformMCPToNotion u).Description.isSome = true
    ∧ (transformMCPToNotion u).Status.isSome = true
    ∧ (transformMCPToNotion u).Tags.isSome = true := by
  refine ⟨?_, ?_, ?_, ?_, rfl, rfl, rfl, rfl⟩ <;>
    · intro h
      simp [transformNotionToMCP, h]

/-- Witness for C6 at a concrete input: the all-absent page resolves every
field to its default, and the transform of the empty record is present. -/
theorem transforms_defensive_defaults_witness :
    (transformNotionToMCP pageEmpty).name = ""
    ∧ (transformNotionToMCP pageEmpty).description = ""
    ∧ (transformNotionToMCP pageEmpty).status = ""
    ∧ (transformNotionToMCP pageEmpty).tags = []
    ∧ (transformMCPToNotion ucEmpty).Name.isSome = true := by
  have h := transforms_defensive_defaults pageEmpty ucEmpty
  exact ⟨h.1 rfl, h.2.1 rfl, h.2.2.1 rfl, h.2.2.2.1 rfl, h.2.2.2.2.1⟩

end NotionSync
